import Mathlib

/-!
Shallow embedding of the MacroHEX/tic_tac_toe repository for specification
checking.  The repository bundles (a) fragments of the pygame_menu widget
toolkit (`_widgetmanager.py`, `utils.py`) and (b) small tic-tac-toe scripts
(`grid.py`, `server.py`).  Numeric inputs are modelled as `Int` (the Python
code accepts ints and floats; `int(·)` is the identity on ints, and every
claim under scrutiny is about integer inputs).  Fallible Python code
(`assert`, `raise`) is embedded as `Except String` results.
-/

namespace PygameMenu

/-- A padding argument as accepted by `parse_padding` in
`pygame_menu/utils.py`: either a single number or a tuple of numbers. -/
inductive PaddingInput where
  | num (n : Int)
  | tup (l : List Int)
deriving DecidableEq

/-- Embeds `parse_padding` (`pygame_menu/utils.py`, lines 479-516).
A single number `n ≥ 0` expands to `(n, n, n, n)`; a tuple of 1 to 4
non-negative numbers expands to `(top, right, bottom, left)` by the CSS
shorthand; a negative component or a bad length fails the Python `assert`,
embedded as `.error`. -/
def parse_padding : PaddingInput → Except String (Int × Int × Int × Int)
  | .num n =>
    if 0 ≤ n then .ok (n, n, n, n)
    else .error "padding cannot be a negative number"
  | .tup l =>
    if 1 ≤ l.length ∧ l.length ≤ 4 then
      if l.all (fun x => 0 ≤ x) then
        match l with
        | [a] => .ok (a, a, a, a)
        | [a, b] => .ok (a, b, a, b)
        | [a, b, c] => .ok (a, b, c, b)
        | a :: b :: c :: d :: _ => .ok (a, b, c, d)
        | [] => .error "padding must be a tuple of 2, 3 or 4 elements"
      else .error "all padding elements must be equal or greater than zero"
    else .error "padding must be a tuple of 2, 3 or 4 elements"

/-- A margin argument as accepted by the `margin` branch of
`WidgetManager._filter_widget_attributes`: either a single number
or a list/tuple of numbers. -/
inductive MarginInput where
  | num (n : Int)
  | vec (l : List Int)
deriving DecidableEq

/-- Embeds the `margin` handling of `WidgetManager._filter_widget_attributes`
(`pygame_menu/_widgetmanager.py`, lines 229-234) together with
`assert_vector(margin, 2)` from `pygame_menu/utils.py` (lines 208-232):
a literal `0` is replaced by `(0, 0)`; any other bare number is not a
vector and fails `assert_vector`; a 2-component numeric vector is accepted
as given, with no sign restriction. -/
def filter_margin : MarginInput → Except String (Int × Int)
  | .num n =>
    if n = 0 then .ok (0, 0)
    else .error "vector must be a list or tuple of 2 items"
  | .vec l =>
    match l with
    | [x, y] => .ok (x, y)
    | _ => .error "vector must contain 2 numbers only"

/-- Embeds the sizing part of `WidgetManager._frame`
(`pygame_menu/_widgetmanager.py`, lines 2180-2261): parse the padding,
require `width > right + left` and `height > top + bottom` (the two
Python `assert`s), and construct the Frame with internal size
`(width - (right + left), height - (top + bottom))`. -/
def frame_internal_size (width height : Int) (padding : PaddingInput) :
    Except String (Int × Int) :=
  match parse_padding padding with
  | .error e => .error e
  | .ok (t, r, b, l) =>
    let pad_h := r + l
    let pad_v := t + b
    if width > pad_h then
      if height > pad_v then .ok (width - pad_h, height - pad_v)
      else .error "frame height cannot be lower than vertical padding size"
    else .error "frame width cannot be lower than horizontal padding size"

/-- A widget, as seen by `WidgetManager._append_widget`: an identifier and an
optional reference to the owning menu (`Widget.get_menu` / `set_menu`;
`none` models a detached widget). -/
structure Widget where
  id : String
  menu : Option Nat := none
deriving DecidableEq

/-- A menu tree, as seen by `WidgetManager._append_widget`: an identity and
the ordered list of attached widgets (`Menu._widgets`). -/
structure Menu where
  menuId : Nat
  widgets : List Widget
deriving DecidableEq

/-- The two render-time exceptions caught by `_append_widget`:
`_MenuSizingException` and `_MenuWidgetOverflow`. -/
inductive RenderError where
  | sizing
  | overflow
deriving DecidableEq

/-- The errors `_append_widget` can raise to its caller. -/
inductive AppendError where
  | wrongMenu
  | duplicateId
  | render (e : RenderError)
deriving DecidableEq

/-- Modelled from the spec: `Menu._check_id_duplicated` is not under src/
(only its call site in `_append_widget` is).  Per the spec's error taxonomy
it raises a `DuplicateIdError`-class error when two widgets share an
identifier within the same tree; embedded as a membership test on the
attached widgets' identifiers. -/
def check_id_duplicated (m : Menu) (wid : String) : Bool :=
  (m.widgets.map Widget.id).contains wid

/-- Modelled from the spec: `Menu.remove_widget` is not under src/ (only its
call site in `_append_widget` is).  Per the spec's rollback requirement it
removes the widget from the menu's widget list. -/
def remove_widget (m : Menu) (w : Widget) : Menu :=
  { m with widgets := m.widgets.filter (fun v => v.id ≠ w.id) }

/-- The observable outcome of one `_append_widget` call: the menu tree after
the call, the final state of the widget argument, and the returned value or
raised error. -/
structure AppendResult where
  menu : Menu
  widget : Widget
  result : Except AppendError Unit

/-- Embeds `WidgetManager._append_widget`
(`pygame_menu/_widgetmanager.py`, lines 356-403).  The solver/render pass
(`Menu._render`, not under src/) is abstracted as the `render` argument, a
function of the widget list that either succeeds or fails with a sizing or
overflow error.  Steps, in source order: adopt the menu reference if the
widget has none, reject a foreign menu reference, reject a duplicated
identifier, append to `Menu._widgets`, render; on a sizing/overflow failure
remove the widget again (rolling it back to detached) and re-raise. -/
def append_widget (render : List Widget → Except RenderError Unit)
    (m : Menu) (w : Widget) : AppendResult :=
  let w := if w.menu = none then { w with menu := some m.menuId } else w
  if w.menu ≠ some m.menuId then
    ⟨m, w, .error .wrongMenu⟩
  else if check_id_duplicated m w.id then
    ⟨m, w, .error .duplicateId⟩
  else
    let m1 : Menu := { m with widgets := m.widgets ++ [w] }
    match render m1.widgets with
    | .error e => ⟨remove_widget m1 w, { w with menu := none }, .error (.render e)⟩
    | .ok _ => ⟨m1, w, .ok ()⟩

end PygameMenu

namespace LayoutSpec

/-- Cross-axis alignment of a packed child (spec section 4.2:
start / center / end within the frame's cross-axis extent). -/
inductive Align where
  | start
  | center
  | last
deriving DecidableEq

/-- Modelled from the spec: the Frame packing code
(`pygame_menu/widgets/widget/frame.py`) is not under src/.  A child, per
spec sections 3 and 4.2: a main-axis and cross-axis size and margin, an
alignment, a floating flag, a declared position (the only thing used to
place a floating child), and the computed position written by packing. -/
structure Child where
  mainSize : Int
  crossSize : Int
  mainMargin : Int
  crossMargin : Int
  align : Align
  floating : Bool
  declMain : Int
  declCross : Int
  mainPos : Int := 0
  crossPos : Int := 0
deriving DecidableEq

/-- Modelled from the spec: a frame, per spec section 3 — an ordered
sequence of children, a padding-adjusted origin for the running main-axis
offset, and a cross-axis origin and extent used for alignment. -/
structure FrameSpec where
  origin : Int
  crossOrigin : Int
  crossExtent : Int
  children : List Child
deriving DecidableEq

/-- Modelled from the spec (section 4.2): cross-axis position of a
non-floating child according to its alignment (start / center / end)
within the frame's cross-axis extent. -/
def crossAlignPos (crossOrigin crossExtent : Int) (c : Child) : Int :=
  match c.align with
  | .start => crossOrigin
  | .center => crossOrigin + (crossExtent - c.crossSize) / 2
  | .last => crossOrigin + (crossExtent - c.crossSize)

/-- Modelled from the spec (section 4.2): place one child.  A non-floating
child is placed at the running offset and advances it by size + margin; a
floating child is positioned using only its own declared position and never
advances the running offset. -/
def packStep (crossOrigin crossExtent : Int) (offset : Int) (c : Child) :
    Child × Int :=
  if c.floating then
    ({ c with mainPos := c.declMain, crossPos := c.declCross }, offset)
  else
    ({ c with mainPos := offset,
              crossPos := crossAlignPos crossOrigin crossExtent c },
     offset + c.mainSize + c.mainMargin)

/-- Modelled from the spec (section 4.2): pack a list of children in
insertion order, threading the running main-axis offset; returns the
repositioned children and the final offset. -/
def packList (crossOrigin crossExtent : Int) :
    Int → List Child → List Child × Int
  | offset, [] => ([], offset)
  | offset, c :: cs =>
    let s := packStep crossOrigin crossExtent offset c
    let rest := packList crossOrigin crossExtent s.2 cs
    (s.1 :: rest.1, rest.2)

/-- Modelled from the spec (section 4.2): pack a frame's children, starting
the running offset at the frame's padding-adjusted origin.  Returns the
frame with repositioned children together with the final running offset. -/
def pack (f : FrameSpec) : FrameSpec × Int :=
  let r := packList f.crossOrigin f.crossExtent f.origin f.children
  ({ f with children := r.1 }, r.2)

/-- The frame's packed content size along the main axis: how far the
running offset advanced past the origin during packing. -/
def packedMainSize (f : FrameSpec) : Int := (pack f).2 - f.origin

/-- The frame's packed content size along the cross axis: the maximum of
the non-floating children's cross-axis extents (size + margin), per the
spec's invariant (section 3). -/
def packedCrossSize (f : FrameSpec) : Int :=
  ((f.children.filter (fun c => !c.floating)).map
    (fun c => c.crossSize + c.crossMargin)).foldr max 0

/-- Packing as a state update on the frame (positions rewritten, everything
else kept). -/
def repack (f : FrameSpec) : FrameSpec := (pack f).1

/-- Modelled from the spec (section 4.3): clamp a scroll offset into the
valid range `[0, packed - viewport]` (clamped, never wrapped). -/
def clampOffset (packed viewport off : Int) : Int :=
  max 0 (min off (packed - viewport))

/-- Modelled from the spec (section 4.3): `scroll_to(widget)` computes the
minimal offset delta that brings the target widget's bounding box
`[wpos, wpos + wsize]` (content coordinates) fully inside the viewport
`[off, off + viewport]`, then clamps to the valid range. -/
def scroll_to (packed viewport off wpos wsize : Int) : Int :=
  let target :=
    if wpos < off then wpos
    else if wpos + wsize > off + viewport then wpos + wsize - viewport
    else off
  clampOffset packed viewport target

end LayoutSpec

namespace TicTacToe

/-- A cell of the grid in `grid.py`: the integer `0` (empty, as set by
`Grid.__init__`) or a string mark (as written by `set_cell_value`). -/
inductive Cell where
  | zero
  | mark (s : String)
deriving DecidableEq

/-- The mutable state of a `Grid` object (`grid.py`): the 3×3 matrix
(`self.grid`, indexed `grid[y][x]`) and the `switch_player` flag.  The
static `grid_lines` data is omitted (never written, irrelevant to the
claims). -/
structure Grid where
  grid : List (List Cell)
  switch_player : Bool
deriving DecidableEq

/-- Embeds `Grid.__init__` (`grid.py`, lines 9-17): a 3×3 matrix of `0`
and `switch_player = True`. -/
def Grid.init : Grid :=
  { grid := List.replicate 3 (List.replicate 3 Cell.zero)
    switch_player := true }

/-- Embeds `Grid.get_cell_value` (`grid.py`): `self.grid[y][x]`.  Python
list indexing raises on out-of-range indices; the claims only quantify over
in-range cells, so a total `getD` embedding is used. -/
def Grid.get_cell_value (g : Grid) (x y : Nat) : Cell :=
  (g.grid.getD y []).getD x Cell.zero

/-- Embeds `Grid.set_cell_value` (`grid.py`): `self.grid[y][x] = value`. -/
def Grid.set_cell_value (g : Grid) (x y : Nat) (value : Cell) : Grid :=
  { g with grid := g.grid.set y ((g.grid.getD y []).set x value) }

/-- Embeds `Grid.get_mouse` (`grid.py`, lines 36-44): if the cell is `0`,
set `switch_player = True` and write the player's mark when the player is
`"X"` or `"O"`; otherwise set `switch_player = False` and leave the matrix
untouched. -/
def Grid.get_mouse (g : Grid) (x y : Nat) (player : String) : Grid :=
  if g.get_cell_value x y = Cell.zero then
    let g1 : Grid := { g with switch_player := true }
    if player = "X" then g1.set_cell_value x y (Cell.mark "X")
    else if player = "O" then g1.set_cell_value x y (Cell.mark "O")
    else g1
  else { g with switch_player := false }

/-- A `Grid` state is well-formed when the matrix is 3×3 — established by
`Grid.init` and preserved by every mutation in the scripts. -/
def Grid.wf (g : Grid) : Prop :=
  g.grid.length = 3 ∧ ∀ row ∈ g.grid, row.length = 3

/-- The attribute names bound on a `Grid` instance by `Grid.__init__`
(`grid.py`, lines 9-17): `grid_lines`, `grid`, `switch_player` — and no
`game_over`. -/
def gridInitAttrs : List String := ["grid_lines", "grid", "switch_player"]

/-- The method names defined by `class Grid` (`grid.py`): `draw`,
`get_cell_value`, `set_cell_value`, `get_mouse`, `print_grid` — and no
`clear_grid`. -/
def gridClassMethods : List String :=
  ["draw", "get_cell_value", "set_cell_value", "get_mouse", "print_grid"]

/-- Python attribute lookup on the server's `grid` object: an attribute
resolves if bound by `__init__`, assigned dynamically later (`dyn`), or
defined on the class; otherwise the access raises `AttributeError`. -/
def getattrGrid (dyn : List String) (name : String) : Except String Unit :=
  if name ∈ gridInitAttrs ∨ name ∈ dyn ∨ name ∈ gridClassMethods then .ok ()
  else .error "AttributeError"

/-- The events of a `server.py` run that touch the `grid` object's
attribute namespace: `recvGameOver` is `receive_data` handling a message
whose fourth field is `'False'` (which executes `grid.game_over = True`,
`server.py` line 35, creating the attribute); `recvOther` is any other
received message; `mouseClick` and `spaceKey` are the two event-loop
handlers (lines 64-74 and 76-80). -/
inductive ServerEvent where
  | recvGameOver
  | recvOther
  | mouseClick
  | spaceKey
deriving DecidableEq

/-- The dynamic attributes assigned on `grid` by a prefix of a server run:
only `receive_data` ever creates a new attribute (`game_over`); no event
ever defines `clear_grid`. -/
def dynAttrs (trace : List ServerEvent) : List String :=
  trace.foldl
    (fun acc e => if e = ServerEvent.recvGameOver then acc ++ ["game_over"] else acc)
    []

end TicTacToe

open PygameMenu LayoutSpec TicTacToe

/-- Filtering a widget list by "identifier differs from `i`" is the
identity when no element carries identifier `i`. -/
theorem PygameMenu.filter_id_ne_of_not_mem {l : List Widget} {i : String}
    (h : i ∉ l.map Widget.id) :
    l.filter (fun v => !decide (v.id = i)) = l := by
  rw [List.filter_eq_self]
  intro a ha
  simp only [Bool.not_eq_eq_eq_not, Bool.not_true, decide_eq_false_iff_not]
  intro hai
  exact h (hai ▸ List.mem_map_of_mem Widget.id ha)

/-- C2: the padding parser maps a single non-negative number `n` to
`(n, n, n, n)`; tuples of 1, 2, 3 or 4 non-negative numbers expand by the
CSS shorthand rule to `(a,a,a,a)`, `(a,b,a,b)`, `(a,b,c,b)` and
`(a,b,c,d)` respectively; and any input with a negative component is
rejected. -/
theorem parse_padding_css_shorthand (n a b c d : Int) :
    (0 ≤ n → parse_padding (.num n) = .ok (n, n, n, n)) ∧
    (0 ≤ a → parse_padding (.tup [a]) = .ok (a, a, a, a)) ∧
    (0 ≤ a → 0 ≤ b → parse_padding (.tup [a, b]) = .ok (a, b, a, b)) ∧
    (0 ≤ a → 0 ≤ b → 0 ≤ c → parse_padding (.tup [a, b, c]) = .ok (a, b, c, b)) ∧
    (0 ≤ a → 0 ≤ b → 0 ≤ c → 0 ≤ d →
      parse_padding (.tup [a, b, c, d]) = .ok (a, b, c, d)) ∧
    (n < 0 → ∀ p, parse_padding (.num n) ≠ .ok p) ∧
    (∀ l : List Int, (∃ x ∈ l, x < 0) → ∀ p, parse_padding (.tup l) ≠ .ok p) := by
  refine ⟨?_, ?_, ?_, ?_, ?_, ?_, ?_⟩
  · intro hn
    simp [parse_padding, hn]
  · intro ha
    simp [parse_padding, ha]
  · intro ha hb
    simp [parse_padding, ha, hb]
  · intro ha hb hc
    simp [parse_padding, ha, hb, hc]
  · intro ha hb hc hd
    simp [parse_padding, ha, hb, hc, hd]
  · intro hn p
    simp [parse_padding, not_le.mpr hn]
  · intro l hx p
    obtain ⟨x, hxl, hxneg⟩ := hx
    have hall : l.all (fun x => decide (0 ≤ x)) = false := by
      rw [List.all_eq_false]
      exact ⟨x, hxl, by simpa using hxneg⟩
    simp only [parse_padding]
    split_ifs with h1 h2
    · simp_all
    · simp
    · simp

/-- C2 witness: concrete instances of the shorthand expansion and of the
rejection of a negative component. -/
theorem parse_padding_css_shorthand_witness :
    parse_padding (.tup [1, 2, 3]) = .ok (1, 2, 3, 2) ∧
    parse_padding (.num (-1)) ≠ .ok (0, 0, 0, 0) ∧
    parse_padding (.tup [4, -2]) ≠ .ok (4, -2, 4, -2) := by
  have h := parse_padding_css_shorthand (-1) 1 2 3 4
  refine ⟨h.2.2.2.1 (by norm_num) (by norm_num) (by norm_num),
    h.2.2.2.2.2.1 (by norm_num) _, ?_⟩
  have h2 := parse_padding_css_shorthand 0 0 0 0 0
  exact h2.2.2.2.2.2.2 [4, -2] ⟨-2, by norm_num⟩ _

/-- C7: margin validation applies no sign restriction — every pair of
numeric components, negative ones included, is accepted as the `(x, y)`
margin, and only the 2-component vector shape is enforced. -/
theorem filter_margin_no_sign_restriction (x y : Int) (l : List Int) :
    filter_margin (.vec [x, y]) = .ok (x, y) ∧
    (l.length ≠ 2 → ∀ p, filter_margin (.vec l) ≠ .ok p) := by
  constructor
  · rfl
  · intro hl p
    match l with
    | [] => simp [filter_margin]
    | [a] => simp [filter_margin]
    | [a, b] => simp at hl
    | a :: b :: c :: rest => simp [filter_margin]

/-- C7 witness: a pair of negative margin components is accepted verbatim,
and a 3-component vector is rejected. -/
theorem filter_margin_no_sign_restriction_witness :
    filter_margin (.vec [-5, -7]) = .ok (-5, -7) ∧
    filter_margin (.vec [1, 2, 3]) ≠ .ok (1, 2) := by
  have h := filter_margin_no_sign_restriction (-5) (-7) [1, 2, 3]
  exact ⟨h.1, h.2 (by norm_num) _⟩

/-- C8: a frame of width `w`, height `h` and padding expanding to
`(t, r, b, l)` is created exactly when `w > r + l` and `h > t + b`
(otherwise the assertion fails), and its internal size is
`(w - (r + l), h - (t + b))`. -/
theorem frame_internal_size_spec (w h t r b l : Int) (padding : PaddingInput)
    (hp : parse_padding padding = .ok (t, r, b, l)) :
    (w > r + l → h > t + b →
      frame_internal_size w h padding = .ok (w - (r + l), h - (t + b))) ∧
    (¬(w > r + l ∧ h > t + b) →
      ∀ s, frame_internal_size w h padding ≠ .ok s) := by
  unfold frame_internal_size
  rw [hp]
  constructor
  · intro h1 h2
    simp [h1, h2]
  · intro h1 s
    dsimp only
    split_ifs with h2 h3
    · exact absurd ⟨h2, h3⟩ h1
    · simp
    · simp

/-- C8 witness: width 10, height 9, uniform padding 2 gives internal size
(6, 5); width 4 with the same padding is rejected. -/
theorem frame_internal_size_spec_witness :
    frame_internal_size 10 9 (.num 2) = .ok (6, 5) ∧
    frame_internal_size 4 9 (.num 2) ≠ .ok (0, 5) := by
  have h1 := frame_internal_size_spec 10 9 2 2 2 2 (.num 2) (by rfl)
  have h2 := frame_internal_size_spec 4 9 2 2 2 2 (.num 2) (by rfl)
  exact ⟨h1.1 (by norm_num) (by norm_num), h2.2 (by norm_num) _⟩

/-- The final running offset of a packing pass: the starting offset plus
the sum of the non-floating children's main-axis extents. -/
theorem LayoutSpec.packList_offset (co ce off : Int) (cs : List Child) :
    (packList co ce off cs).2 =
      off + ((cs.filter (fun c => !c.floating)).map
        (fun c => c.mainSize + c.mainMargin)).sum := by
  induction cs generalizing off with
  | nil => simp [packList]
  | cons c cs ih =>
    by_cases hc : c.floating = true
    · simp [packList, packStep, hc, ih]
    · simp only [Bool.not_eq_true] at hc
      simp [packList, packStep, hc, ih]
      ring

/-- Every member of an integer list is bounded by its `foldr max 0`. -/
theorem LayoutSpec.le_foldr_max (l : List Int) : ∀ x ∈ l, x ≤ l.foldr max 0 := by
  induction l with
  | nil => simp
  | cons a l ih =>
    intro x hx
    rcases List.mem_cons.mp hx with h | h
    · rw [h, List.foldr_cons]
      exact le_max_left a (l.foldr max 0)
    · exact le_trans (ih x h) (le_max_right a (l.foldr max 0))

/-- The `foldr max 0` of an integer list is `0` or one of its members. -/
theorem LayoutSpec.foldr_max_mem (l : List Int) :
    l.foldr max 0 = 0 ∨ l.foldr max 0 ∈ l := by
  induction l with
  | nil => simp
  | cons a l ih =>
    rcases max_choice a (l.foldr max 0) with h | h
    · right
      simp [List.foldr_cons, h]
    · rcases ih with h0 | hm
      · left
        rw [List.foldr_cons, h, h0]
      · right
        rw [List.foldr_cons, h]
        exact List.mem_cons_of_mem a hm

/-- Re-placing an already placed child is the same as placing the original
child: `packStep` reads no position field and overwrites both. -/
theorem LayoutSpec.packStep_repack (co ce off1 off2 : Int) (c : Child) :
    packStep co ce off2 (packStep co ce off1 c).1 = packStep co ce off2 c := by
  by_cases hc : c.floating = true <;>
    simp [packStep, crossAlignPos, hc]

/-- Re-packing an already packed child list from any starting offset equals
packing the original list from that offset. -/
theorem LayoutSpec.packList_repack (co ce : Int) (cs : List Child) :
    ∀ off1 off2,
      packList co ce off2 (packList co ce off1 cs).1 =
        packList co ce off2 cs := by
  induction cs with
  | nil => intro off1 off2; rfl
  | cons c cs ih =>
    intro off1 off2
    simp only [packList, packStep_repack, ih]

/-- C4: for every frame, the packed content size along the main axis — the
distance the running offset advanced — equals the sum of the non-floating
children's main-axis extents (size plus margin); floating children
contribute nothing.  The cross-axis packed size is the maximum of the
non-floating children's cross-axis extents: it bounds each of them and is
zero or attained by one of them. -/
theorem packed_size_sum_of_extents (f : FrameSpec) :
    packedMainSize f =
      ((f.children.filter (fun c => !c.floating)).map
        (fun c => c.mainSize + c.mainMargin)).sum ∧
    (∀ c ∈ f.children.filter (fun c => !c.floating),
      c.crossSize + c.crossMargin ≤ packedCrossSize f) ∧
    (packedCrossSize f = 0 ∨
      ∃ c ∈ f.children.filter (fun c => !c.floating),
        packedCrossSize f = c.crossSize + c.crossMargin) := by
  refine ⟨?_, ?_, ?_⟩
  · simp [packedMainSize, pack, LayoutSpec.packList_offset]
  · intro c hc
    unfold packedCrossSize
    exact LayoutSpec.le_foldr_max _ _ (List.mem_map_of_mem _ hc)
  · unfold packedCrossSize
    rcases LayoutSpec.foldr_max_mem
      (((f.children.filter (fun c => !c.floating)).map
        (fun c => c.crossSize + c.crossMargin))) with h | h
    · exact Or.inl h
    · obtain ⟨c, hc, hv⟩ := List.mem_map.mp h
      exact Or.inr ⟨c, hc, hv.symm⟩

/-- C4 witness: a frame with children of main-axis extents 100 and 80 and a
floating child packs to main size 180; the first child's cross extent 30 is
bounded by the packed cross size. -/
theorem packed_size_sum_of_extents_witness :
    packedMainSize
      ⟨0, 0, 100,
       [⟨100, 30, 0, 0, .start, false, 0, 0, 0, 0⟩,
        ⟨50, 40, 0, 0, .start, true, 7, 7, 0, 0⟩,
        ⟨80, 20, 0, 0, .start, false, 0, 0, 0, 0⟩]⟩ = 180 ∧
    (30 : Int) + 0 ≤ packedCrossSize
      ⟨0, 0, 100,
       [⟨100, 30, 0, 0, .start, false, 0, 0, 0, 0⟩,
        ⟨50, 40, 0, 0, .start, true, 7, 7, 0, 0⟩,
        ⟨80, 20, 0, 0, .start, false, 0, 0, 0, 0⟩]⟩ := by
  have h := packed_size_sum_of_extents
    ⟨0, 0, 100,
     [⟨100, 30, 0, 0, .start, false, 0, 0, 0, 0⟩,
      ⟨50, 40, 0, 0, .start, true, 7, 7, 0, 0⟩,
      ⟨80, 20, 0, 0, .start, false, 0, 0, 0, 0⟩]⟩
  refine ⟨?_, h.2.1 ⟨100, 30, 0, 0, .start, false, 0, 0, 0, 0⟩ (by decide)⟩
  rw [h.1]
  decide

/-- C5: packing is idempotent — packing a frame a second time, with the
children and frame geometry unchanged, yields bit-identical positions for
every child. -/
theorem pack_idempotent (f : FrameSpec) : repack (repack f) = repack f := by
  simp only [repack, pack, LayoutSpec.packList_repack]

/-- C6: `scroll_to` on a viewport whose packed content is at least the
viewport returns an offset inside `[0, packed - viewport]` (clamped, never
wrapped), and whenever the widget is not larger than the viewport the
widget's box ends up fully inside the visible window. -/
theorem scroll_to_clamped_contains (packed viewport off wpos wsize : Int)
    (hvp : viewport ≤ packed)
    (hw0 : 0 ≤ wpos) (_hws : 0 ≤ wsize) (hwc : wpos + wsize ≤ packed) :
    0 ≤ scroll_to packed viewport off wpos wsize ∧
    scroll_to packed viewport off wpos wsize ≤ packed - viewport ∧
    (wsize ≤ viewport →
      scroll_to packed viewport off wpos wsize ≤ wpos ∧
      wpos + wsize ≤ scroll_to packed viewport off wpos wsize + viewport) := by
  simp only [scroll_to, clampOffset]
  split_ifs <;> omega

/-- C6 witness: content 300, viewport 150, widget `[160, 300]`: scrolling
to the widget lands on offset 150, inside `[0, 150]`, and the widget is
fully visible. -/
theorem scroll_to_clamped_contains_witness :
    0 ≤ scroll_to 300 150 0 160 140 ∧
    scroll_to 300 150 0 160 140 ≤ 150 ∧
    scroll_to 300 150 0 160 140 ≤ 160 ∧
    (300 : Int) ≤ scroll_to 300 150 0 160 140 + 150 := by
  have h := scroll_to_clamped_contains 300 150 0 160 140
    (by norm_num) (by norm_num) (by norm_num) (by norm_num)
  have h2 := h.2.2 (by norm_num)
  exact ⟨h.1, by simpa using h.2.1, h2.1, by simpa using h2.2⟩

/-- C1: when the render pass triggered by `_append_widget` fails with a
sizing or overflow error, the same error is re-raised to the caller, the
newly added widget is rolled back to detached, and the pre-existing widget
tree is exactly the pre-call tree. -/
theorem append_widget_rollback (render : List Widget → Except RenderError Unit)
    (m : Menu) (w : Widget) (e : RenderError)
    (hdetached : w.menu = none)
    (hfresh : w.id ∉ m.widgets.map Widget.id)
    (hrender : render (m.widgets ++ [{ w with menu := some m.menuId }]) = .error e) :
    (append_widget render m w).result = .error (.render e) ∧
    (append_widget render m w).menu = m ∧
    (append_widget render m w).widget.menu = none := by
  have hdup : check_id_duplicated m w.id = false := by
    simpa [check_id_duplicated] using hfresh
  refine ⟨?_, ?_, ?_⟩ <;>
    simp [append_widget, hdetached, hdup, hrender, remove_widget,
      List.filter_append, PygameMenu.filter_id_ne_of_not_mem hfresh]

/-- C1 witness: a render pass that always reports a sizing error; adding a
fresh widget to an empty menu re-raises the error and leaves the menu
empty, the widget detached. -/
theorem append_widget_rollback_witness :
    (append_widget (fun _ => .error .sizing) ⟨0, []⟩ ⟨"a", none⟩).result
      = .error (.render .sizing) ∧
    (append_widget (fun _ => .error .sizing) ⟨0, []⟩ ⟨"a", none⟩).menu
      = ⟨0, []⟩ ∧
    (append_widget (fun _ => .error .sizing) ⟨0, []⟩ ⟨"a", none⟩).widget.menu
      = none :=
  append_widget_rollback (fun _ => .error .sizing) ⟨0, []⟩ ⟨"a", none⟩ .sizing
    rfl (by simp) rfl

/-- C3: packing a widget whose identifier already exists in the menu tree
is detected synchronously inside `_append_widget`: the duplicate-id error
is returned to the immediate caller and the widget tree is exactly the
pre-call tree, with no partially attached widget. -/
theorem append_widget_duplicate_id
    (render : List Widget → Except RenderError Unit)
    (m : Menu) (w : Widget)
    (hmenu : w.menu = none ∨ w.menu = some m.menuId)
    (hdup : w.id ∈ m.widgets.map Widget.id) :
    (append_widget render m w).result = .error .duplicateId ∧
    (append_widget render m w).menu = m := by
  have hc : check_id_duplicated m w.id = true := by
    simpa [check_id_duplicated] using hdup
  rcases hmenu with h | h <;>
    simp [append_widget, h, hc]

/-- C3 witness: adding a second widget with identifier `"a"` to a menu
already holding one fails with the duplicate-id error and leaves the menu
unchanged. -/
theorem append_widget_duplicate_id_witness :
    (append_widget (fun _ => .ok ()) ⟨0, [⟨"a", some 0⟩]⟩ ⟨"a", none⟩).result
      = .error .duplicateId ∧
    (append_widget (fun _ => .ok ()) ⟨0, [⟨"a", some 0⟩]⟩ ⟨"a", none⟩).menu
      = ⟨0, [⟨"a", some 0⟩]⟩ :=
  append_widget_duplicate_id (fun _ => .ok ()) ⟨0, [⟨"a", some 0⟩]⟩
    ⟨"a", none⟩ (Or.inl rfl) (by simp)

/-- Reading back the updated index of `List.set`. -/
theorem TicTacToe.getD_set_self {α : Type} (l : List α) (i : Nat) (a d : α)
    (h : i < l.length) : (l.set i a).getD i d = a := by
  simp [List.getD_eq_getElem?_getD, List.getElem?_set_eq_of_lt a h]

/-- Reading any other index of `List.set`. -/
theorem TicTacToe.getD_set_ne {α : Type} (l : List α) (i j : Nat) (a d : α)
    (h : i ≠ j) : (l.set i a).getD j d = l.getD j d := by
  simp [List.getD_eq_getElem?_getD, List.getElem?_set_ne h]

/-- C9: on a 3×3 grid, `get_mouse` on an occupied cell leaves every cell
unchanged and sets `switch_player` to `False`; on an empty cell with player
`"X"` or `"O"` it writes exactly that mark into that cell, leaves the other
eight cells unchanged, and sets `switch_player` to `True`. -/
theorem get_mouse_cell_semantics (g : Grid) (x y : Nat) (player : String)
    (hwf : g.wf) (hx : x < 3) (hy : y < 3) :
    (g.get_cell_value x y ≠ Cell.zero →
      g.get_mouse x y player = { g with switch_player := false }) ∧
    (g.get_cell_value x y = Cell.zero → player = "X" ∨ player = "O" →
      (g.get_mouse x y player).switch_player = true ∧
      (g.get_mouse x y player).get_cell_value x y = Cell.mark player ∧
      ∀ x2 y2, x2 < 3 → y2 < 3 → (x2, y2) ≠ (x, y) →
        (g.get_mouse x y player).get_cell_value x2 y2
          = g.get_cell_value x2 y2) := by
  obtain ⟨hlen, hrows⟩ := hwf
  have hylen : y < g.grid.length := by omega
  have hxrow : x < (g.grid.getD y []).length := by
    have hmem : g.grid.getD y [] ∈ g.grid := by
      rw [List.getD_eq_getElem?_getD, List.getElem?_eq_getElem hylen]
      exact List.getElem_mem hylen
    rw [hrows _ hmem]
    omega
  constructor
  · intro hocc
    simp [Grid.get_mouse, hocc]
  · intro hempty hplayer
    have hset : ∀ v : Cell,
        (g.set_cell_value x y v).get_cell_value x y = v := by
      intro v
      simp only [Grid.set_cell_value, Grid.get_cell_value]
      rw [TicTacToe.getD_set_self _ _ _ _ hylen,
        TicTacToe.getD_set_self _ _ _ _ hxrow]
    have hother : ∀ (v : Cell) (x2 y2 : Nat), (x2, y2) ≠ (x, y) →
        (g.set_cell_value x y v).get_cell_value x2 y2
          = g.get_cell_value x2 y2 := by
      intro v x2 y2 hne
      simp only [Grid.set_cell_value, Grid.get_cell_value]
      by_cases hyy : y = y2
      · subst hyy
        have hxx : x ≠ x2 := fun hxx => hne (by rw [hxx])
        rw [TicTacToe.getD_set_self _ _ _ _ hylen,
          TicTacToe.getD_set_ne _ _ _ _ _ hxx]
      · rw [TicTacToe.getD_set_ne _ _ _ _ _ hyy]
    rcases hplayer with hp | hp <;> subst hp
    · refine ⟨by simp [Grid.get_mouse, hempty, Grid.set_cell_value], ?_, ?_⟩
      · simpa [Grid.get_mouse, hempty] using
          hset (Cell.mark "X")
      · intro x2 y2 _ _ hne
        simpa [Grid.get_mouse, hempty] using
          hother (Cell.mark "X") x2 y2 hne
    · refine ⟨by simp [Grid.get_mouse, hempty, Grid.set_cell_value], ?_, ?_⟩
      · simpa [Grid.get_mouse, hempty] using
          hset (Cell.mark "O")
      · intro x2 y2 _ _ hne
        simpa [Grid.get_mouse, hempty] using
          hother (Cell.mark "O") x2 y2 hne

/-- C9 witness: clicking the empty cell (1, 2) of a fresh grid as player
`"X"` marks exactly that cell, keeps cell (0, 0) empty, and keeps
`switch_player` true; clicking it again as `"O"` changes nothing and sets
`switch_player` to false. -/
theorem get_mouse_cell_semantics_witness :
    (Grid.init.get_mouse 1 2 "X").switch_player = true ∧
    (Grid.init.get_mouse 1 2 "X").get_cell_value 1 2 = Cell.mark "X" ∧
    (Grid.init.get_mouse 1 2 "X").get_cell_value 0 0
      = Grid.init.get_cell_value 0 0 ∧
    (Grid.init.get_mouse 1 2 "X").get_mouse 1 2 "O"
      = { Grid.init.get_mouse 1 2 "X" with switch_player := false } := by
  have hwf : Grid.init.wf := by
    constructor
    · rfl
    · intro row hrow
      simp only [Grid.init, List.mem_replicate] at hrow
      rw [hrow.2]
      rfl
  have h := get_mouse_cell_semantics Grid.init 1 2 "X" hwf
    (by norm_num) (by norm_num)
  have h2 := h.2 (by decide) (Or.inl rfl)
  have hg : (Grid.init.get_mouse 1 2 "X").grid =
      [[Cell.zero, Cell.zero, Cell.zero],
       [Cell.zero, Cell.zero, Cell.zero],
       [Cell.zero, Cell.mark "X", Cell.zero]] := by decide
  have hwf2 : (Grid.init.get_mouse 1 2 "X").wf := by
    constructor
    · rw [hg]
      rfl
    · intro row hrow
      rw [hg] at hrow
      simp only [List.mem_cons, List.not_mem_nil, or_false] at hrow
      rcases hrow with h | h | h <;> rw [h] <;> rfl
  have h3 := get_mouse_cell_semantics (Grid.init.get_mouse 1 2 "X") 1 2 "O"
    hwf2 (by norm_num) (by norm_num)
  refine ⟨h2.1, h2.2.1, h2.2.2 0 0 (by norm_num) (by norm_num) (by decide), ?_⟩
  apply h3.1
  rw [h2.2.1]
  decide

/-- C10 helper: a fold over a trace without `recvGameOver` adds no dynamic
attribute. -/
theorem TicTacToe.dynAttrs_eq_nil {trace : List ServerEvent}
    (h : ServerEvent.recvGameOver ∉ trace) : dynAttrs trace = [] := by
  have key : ∀ (t : List ServerEvent) (acc : List String),
      ServerEvent.recvGameOver ∉ t →
      t.foldl (fun acc e =>
        if e = ServerEvent.recvGameOver then acc ++ ["game_over"] else acc)
        acc = acc := by
    intro t
    induction t with
    | nil => intro acc _; rfl
    | cons e t ih =>
      intro acc hmem
      have he : e ≠ ServerEvent.recvGameOver := fun hh =>
        hmem (hh ▸ List.mem_cons_self e t)
      simp only [List.foldl_cons, if_neg he]
      exact ih acc (fun hh => hmem (List.mem_cons_of_mem e hh))
  exact key trace [] h

/-- C10: `Grid.__init__` binds no `game_over` attribute and `class Grid`
defines no `clear_grid` method, so in every server run in which the
mouse-click guard (reading `grid.game_over`) or the space-key handler
(calling `grid.clear_grid()`) executes before any received message has
assigned `grid.game_over`, the attribute lookup raises `AttributeError`. -/
theorem grid_missing_attributes (trace : List ServerEvent)
    (h : ServerEvent.recvGameOver ∉ trace) :
    "game_over" ∉ gridInitAttrs ∧ "game_over" ∉ gridClassMethods ∧
    "clear_grid" ∉ gridInitAttrs ∧ "clear_grid" ∉ gridClassMethods ∧
    getattrGrid (dynAttrs trace) "game_over" = .error "AttributeError" ∧
    getattrGrid (dynAttrs trace) "clear_grid" = .error "AttributeError" := by
  rw [TicTacToe.dynAttrs_eq_nil h]
  refine ⟨by decide, by decide, by decide, by decide, ?_, ?_⟩ <;>
    simp [getattrGrid, gridInitAttrs, gridClassMethods]

/-- C10 witness: a run whose events are a mouse click, an unrelated
received message and a space key press never assigns `game_over`, and both
accesses raise `AttributeError`. -/
theorem grid_missing_attributes_witness :
    getattrGrid (dynAttrs [ServerEvent.mouseClick, ServerEvent.recvOther,
      ServerEvent.spaceKey]) "game_over" = .error "AttributeError" ∧
    getattrGrid (dynAttrs [ServerEvent.mouseClick, ServerEvent.recvOther,
      ServerEvent.spaceKey]) "clear_grid" = .error "AttributeError" := by
  have h := grid_missing_attributes
    [ServerEvent.mouseClick, ServerEvent.recvOther, ServerEvent.spaceKey]
    (by decide)
  exact ⟨h.2.2.2.2.1, h.2.2.2.2.2⟩
